import Mathlib

/-!
Verification of the multi-LLM collaboration app (src/index.tsx) against its
natural-language specification.

The development shallowly embeds the discussion state machine of the React
component `App`: the round planner (`handleProcessRound`), the parallel
execution engine (`handleExecuteRound` with its inner `executeCall`), the
forced stop (`handleStopDiscussion`), the follow-up path
(`handleContinueWithFollowUp`) and the saved-discussion store
(`saveCurrentDiscussion`).

Modelling conventions:
- External services (the Gemini coordinator and the per-provider chat APIs)
  are modelled as inputs: a planning operation receives the parsed
  coordinator response (`Option CoordinatorResponse`, `none` standing for a
  network failure or a JSON.parse exception), and each executed call receives
  a `ProviderOutcome` describing what its provider did.
- The coordinator response is typed after the `responseSchema`
  (`coordinatorSchema`, src lines 427-453): `round_plan`, its `calls` (with
  all five call fields) and `stop_condition` (enum) and `debate_summary` are
  required by the schema; `final_if_stopped` is nullable and none of its own
  properties is required, so they are `Option`s here.
- `formatAIResponse` (src line 332) is a pure Markdown-stripping text
  cleanup; no claim below depends on its output, so the embedding takes it
  as a parameter `fmt : String → String`, applied exactly at the places the
  source applies `formatAIResponse`.
- JavaScript `async`/`Promise` semantics: an `async` function that throws
  yields a rejected promise; `Promise.all` rejects as soon as any member
  rejects and otherwise resolves to the list of results in input order.
  This is modelled with `Except String`: `runCalls` returns `.error` when
  some call's promise rejects (the error payload is only logged by the
  source, so picking the leftmost rejection loses nothing) and `.ok` with
  the ordered result list otherwise.
- React state updates inside one handler are modelled as one atomic state
  transition; the `loadingAction` flag disables every other control while a
  handler runs, so handlers never interleave.
-/

namespace MultiLLM

/-- `RoundPlan.stop_condition` (src line 16): one of the four enum values of
the coordinator schema. `continue_` renders the reserved word. -/
inductive StopCondition where
  | continue_
  | consensus_formed
  | round_limit_reached
  | insufficient_information
deriving DecidableEq, Repr

/-- `interface Call` (src lines 11-13). -/
structure Call where
  provider : String
  model : String
  role : String
  prompt : String
  timeout_sec : Int
deriving DecidableEq, Repr

/-- `interface RoundPlan` (src lines 14-17). -/
structure RoundPlan where
  calls : List Call
  stop_condition : StopCondition
deriving DecidableEq, Repr

/-- One `{heading, content}` block of `FinalReportData.doc_body_blocks`
(src line 19). -/
structure DocBlock where
  heading : String
  content : String
deriving DecidableEq, Repr

/-- The raw `final_if_stopped` object as parsed from the coordinator
response. The schema (src lines 441-451) lists its properties but marks
none of them `required`, so each may be absent at runtime. -/
structure RawFinalReport where
  consensus : Option String
  bullet_summary : Option (List String)
  doc_outline : Option (List String)
  doc_body_blocks : Option (List DocBlock)
deriving DecidableEq, Repr

/-- The cleaned final report attached to a round (`cleanedFinalReport`,
src lines 629-637). The object spread `...parsed.final_if_stopped` copies
`doc_outline` as-is, so a missing `doc_outline` stays missing. -/
structure FinalReportData where
  consensus : String
  bullet_summary : List String
  doc_outline : Option (List String)
  doc_body_blocks : List DocBlock
deriving DecidableEq, Repr

/-- `interface CoordinatorResponse` (src lines 21-23), as guaranteed by the
structured-output schema: `round_plan` and `debate_summary` present,
`final_if_stopped` optional. -/
structure CoordinatorResponse where
  round_plan : RoundPlan
  debate_summary : String
  final_if_stopped : Option RawFinalReport
deriving DecidableEq, Repr

/-- `interface ExecutionResult` (src lines 24-28): provider/model echo and a
single `response` string. -/
structure ExecutionResult where
  provider : String
  model : String
  response : String
deriving DecidableEq, Repr

/-- `interface RoundHistory` (src lines 29-33). -/
structure RoundHistory where
  round : Nat
  summary : String
  plan : RoundPlan
  execution_results : Option (List ExecutionResult)
  final_report : Option FinalReportData
deriving DecidableEq, Repr

/-- The discussion state owned by the component: the `history` and
`isFinished` React state (src lines 358-359). -/
structure AppState where
  history : List RoundHistory
  isFinished : Bool
deriving DecidableEq, Repr

/-- Initial state: empty history, not finished (src lines 358-359). -/
def initState : AppState := { history := [], isFinished := false }

/-- `flatSelectedModels` (src line 393): the roster flattened to
(provider, model) pairs. -/
def flatSelectedModels (selectedModels : List (String × List String)) :
    List (String × String) :=
  selectedModels.flatMap (fun pm => pm.2.map (fun m => (pm.1, m)))

/-! ## Parallel execution engine (`handleExecuteRound`, src lines 655-778) -/

/-- What the external provider of one call does, as observed by
`executeCall` (src lines 666-762):
- `ok text`: the request succeeded and `text` is the extracted payload
  (`response.text`, `content?.[0]?.text || ''` or
  `choices?.[0]?.message?.content || ''`; a 2xx body without the expected
  fields extracts to `""`, still `ok`);
- `httpError status statusText body`: `fetch` resolved with `!res.ok`
  (the source then throws inside the `try`);
- `netError message`: the request or the body parse threw (network failure,
  CORS, `res.json()` on a non-JSON body, or a Google SDK error); `message`
  is the thrown error's `.message`. -/
inductive ProviderOutcome where
  | ok (text : String)
  | httpError (status : Nat) (statusText : String) (body : String)
  | netError (message : String)
deriving DecidableEq, Repr

/-- The providers handled by the `switch` in `executeCall`
(src lines 679-748); any other provider hits the `default` branch. -/
def supportedProviders : List String :=
  ["Google", "Anthropic", "OpenAI", "Groq", "Mistral", "DeepSeek", "OpenEvidence"]

/-- The failure payload built by `executeCall`'s catch block (src line 759):
`Error: ${detailedError || 'Failed to get response.'}`. The throws in the
`try` never carry a `.response`, so `detailedError` is `e.message`. -/
def failureResponse (message : String) : String :=
  "Error: " ++ (if message = "" then "Failed to get response." else message)

/-- The error message of the non-ok-status throw (src lines 707 and 741):
`${provider} API error: ${status} ${statusText} - ${errorBody}` (the
Anthropic branch spells out "Anthropic", which equals `call.provider`). -/
def httpErrorMessage (call : Call) (status : Nat) (statusText body : String) :
    String :=
  call.provider ++ " API error: " ++ toString status ++ " " ++ statusText
    ++ " - " ++ body

/-- `executeCall` (src lines 666-762). A missing API key throws BEFORE the
`try` block (src lines 667-670), so the async function's promise rejects:
that is the `.error` case. Everything thrown inside the `try` (non-ok
status, network error, unsupported provider) is converted by the `catch`
into a failure `ExecutionResult` (src lines 753-761), and a success returns
the formatted text (src line 751): those are the `.ok` cases. -/
def executeCall (keys : String → Option String) (fmt : String → String)
    (call : Call) (outcome : ProviderOutcome) : Except String ExecutionResult :=
  match keys call.provider with
  | none => .error ("API Key for " ++ call.provider ++ " is missing.")
  | some _ =>
    if supportedProviders.contains call.provider then
      match outcome with
      | .ok text => .ok ⟨call.provider, call.model, fmt text⟩
      | .httpError status statusText body =>
          .ok ⟨call.provider, call.model,
                failureResponse (httpErrorMessage call status statusText body)⟩
      | .netError message =>
          .ok ⟨call.provider, call.model, failureResponse message⟩
    else
      .ok ⟨call.provider, call.model,
            failureResponse ("Unsupported provider: " ++ call.provider)⟩

/-- `Promise.all(latestRound.plan.calls.map(executeCall))` (src lines
765-766): rejects when any member rejects, otherwise resolves to the
results in call order. `env i` is the provider outcome of the i-th call. -/
def runCalls (keys : String → Option String) (fmt : String → String)
    (env : Nat → ProviderOutcome) : Nat → List Call →
    Except String (List ExecutionResult)
  | _, [] => .ok []
  | i, c :: cs =>
    match executeCall keys fmt c (env i), runCalls keys fmt env (i + 1) cs with
    | .error e, _ => .error e
    | .ok _, .error e => .error e
    | .ok r, .ok rs => .ok (r :: rs)

/-- `newHistory[newHistory.length - 1] = ...` (src line 769, also the
in-place update of `lastItem` in src lines 863-867): replace the last
element of the list, leave an empty list alone. -/
def updateLast (f : RoundHistory → RoundHistory) (l : List RoundHistory) :
    List RoundHistory :=
  match l.getLast? with
  | none => l
  | some last => l.dropLast ++ [f last]

/-- `handleExecuteRound` (src lines 655-778). With no round there is
nothing to execute (src lines 660-664). If `Promise.all` rejects, the
outer catch only sets the error banner: no results are written (src lines
772-775). Otherwise the full result list is attached to the latest round
(src lines 767-771). -/
def handleExecuteRound (keys : String → Option String) (fmt : String → String)
    (env : Nat → ProviderOutcome) (st : AppState) : AppState :=
  match st.history.getLast? with
  | none => st
  | some latest =>
    match runCalls keys fmt env 0 latest.plan.calls with
    | .error _ => st
    | .ok results =>
      { st with history :=
          (updateLast (fun h => { h with execution_results := some results })
            st.history) }

/-! ## Round planner (`handleProcessRound`, src lines 544-653) -/

/-- `formatAIResponse` applied to a possibly-absent string:
`formatAIResponse(undefined)` returns `''` (src line 333). -/
def fmtOpt (fmt : String → String) : Option String → String
  | none => ""
  | some s => fmt s

/-- `cleanedFinalReport` (src lines 629-637, identically src lines 851-859):
spread the raw object, clean `consensus`, map-clean `bullet_summary` and
`doc_body_blocks`. When `bullet_summary` or `doc_body_blocks` is absent the
`.map` call throws a TypeError, which the surrounding catch turns into a
failed operation: that is the `none` case. -/
def cleanFinalReport (fmt : String → String) (fr : RawFinalReport) :
    Option FinalReportData :=
  match fr.bullet_summary, fr.doc_body_blocks with
  | some bs, some blocks =>
    some { consensus := fmtOpt fmt fr.consensus
           bullet_summary := bs.map fmt
           doc_outline := fr.doc_outline
           doc_body_blocks :=
             (blocks.map (fun b => ⟨fmt b.heading, fmt b.content⟩)) }
  | _, _ => none

/-- The `newHistoryItem` built by `handleProcessRound` (src lines 639-644):
ordinal `history.length + 1`, cleaned summary, the plan verbatim (no
validation of any kind on its calls), no execution results yet, and the
cleaned final report. -/
def newHistoryItem (fmt : String → String) (st : AppState)
    (r : CoordinatorResponse) (cfr : Option FinalReportData) : RoundHistory :=
  { round := st.history.length + 1
    summary := fmt r.debate_summary
    plan := r.round_plan
    execution_results := none
    final_report := cfr }

/-- The successful tail of `handleProcessRound` (src lines 645-646):
`if (stop_condition !== "continue") setIsFinished(true)` — note there is no
`setIsFinished(false)` branch — then append the new round. -/
def appendRound (fmt : String → String) (st : AppState)
    (r : CoordinatorResponse) (cfr : Option FinalReportData) : AppState :=
  { history := st.history ++ [newHistoryItem fmt st r cfr]
    isFinished :=
      if r.round_plan.stop_condition = .continue_ then st.isFinished else true }

/-- `handleProcessRound` (src lines 544-653). `resp = none` models a failed
request or a `JSON.parse` throw: the catch only sets the error banner, no
state changes. A parsed response first has its final report cleaned; a
TypeError there (absent `bullet_summary`/`doc_body_blocks`) aborts before
any state is written. Otherwise the round is appended. The roster is never
consulted when accepting the response. -/
def handleProcessRound (fmt : String → String) (st : AppState)
    (resp : Option CoordinatorResponse) : AppState :=
  match resp with
  | none => st
  | some r =>
    match r.final_if_stopped with
    | none => appendRound fmt st r none
    | some fr =>
      match cleanFinalReport fmt fr with
      | none => st
      | some cfr => appendRound fmt st r (some cfr)

/-! ## Forced stop (`handleStopDiscussion`, src lines 780-877) -/

/-- The in-place rewrite of the latest round (src lines 861-871):
`lastItem.final_report = cleanedFinalReport`,
`lastItem.plan.stop_condition = parsed.round_plan.stop_condition ||
'consensus_formed'` — all four schema enum strings are truthy, so under a
schema-conforming response the `||` default never fires and the response's
stop condition is written verbatim — then `setIsFinished(true)`
(unconditionally, even when the history is empty and no round was
rewritten). -/
def applyStop (st : AppState) (r : CoordinatorResponse)
    (cfr : Option FinalReportData) : AppState :=
  { history :=
      (updateLast
        (fun h =>
          { h with final_report := cfr,
                   plan := { h.plan with
                              stop_condition := r.round_plan.stop_condition } })
        st.history)
    isFinished := true }

/-- `handleStopDiscussion` (src lines 780-877): same coordinator contract
and final-report cleaning as `handleProcessRound`; on success the latest
round is rewritten in place instead of appending. -/
def handleStopDiscussion (fmt : String → String) (st : AppState)
    (resp : Option CoordinatorResponse) : AppState :=
  match resp with
  | none => st
  | some r =>
    match r.final_if_stopped with
    | none => applyStop st r none
    | some fr =>
      match cleanFinalReport fmt fr with
      | none => st
      | some cfr => applyStop st r (some cfr)

/-! ## Follow-up (`handleContinueWithFollowUp`, src lines 879-885) -/

/-- JavaScript `String.prototype.trim()`: strip leading and trailing
whitespace. (Lean's own `String.trim` is extensionally the same but is
built on constructs the kernel cannot evaluate, so the embedding uses this
character-list version.) -/
def jsTrim (s : String) : String :=
  ⟨((s.data.dropWhile Char.isWhitespace).reverse.dropWhile
      Char.isWhitespace).reverse⟩

/-- `handleContinueWithFollowUp` (src lines 879-885): an empty (trimmed)
question is a no-op; otherwise `setIsFinished(false)` FIRST, then the
planning call runs (and may fail, leaving `isFinished = false`). -/
def handleContinueWithFollowUp (fmt : String → String) (st : AppState)
    (question : String) (resp : Option CoordinatorResponse) : AppState :=
  if jsTrim question = "" then st
  else handleProcessRound fmt { st with isFinished := false } resp

/-! ## Saved-discussion store (`saveCurrentDiscussion`, src lines 887-909) -/

/-- `SavedDiscussion` (src lines 310-322). The `Record` objects are
embedded as association lists; `language` is kept as a plain string. -/
structure SavedDiscussion where
  id : String
  title : String
  timestamp : Int
  topic : String
  selectedModels : List (String × List String)
  modelRoles : List (String × List (String × String))
  clarifiedRoles : List (String × (String × String))
  history : List RoundHistory
  isFinished : Bool
  isCodeMode : Bool
  language : String
deriving DecidableEq, Repr

/-- The title truncation of `saveCurrentDiscussion` (src line 890). -/
def discussionTitle (topic : String) : String :=
  if topic.length > 50 then topic.take 50 ++ "..." else topic

/-- `saveCurrentDiscussion` (src lines 887-909) as a transition on the
`savedDiscussions` store: a no-op when the trimmed topic is empty or the
history is empty; otherwise `[newDiscussion, ...prev.slice(0, 19)]`
prepends the snapshot and keeps at most the first (most recent) 19 prior
entries. `now` stands for `Date.now()`. -/
def saveCurrentDiscussion (now : Int) (topic : String)
    (selectedModels : List (String × List String))
    (modelRoles : List (String × List (String × String)))
    (clarifiedRoles : List (String × (String × String)))
    (history : List RoundHistory) (isFinished isCodeMode : Bool)
    (language : String) (prev : List SavedDiscussion) :
    List SavedDiscussion :=
  if jsTrim topic = "" ∨ history = [] then prev
  else
    { id := toString now
      title := discussionTitle topic
      timestamp := now
      topic := topic
      selectedModels := selectedModels
      modelRoles := modelRoles
      clarifiedRoles := clarifiedRoles
      history := history
      isFinished := isFinished
      isCodeMode := isCodeMode
      language := language } :: prev.take 19

/-! ## The discussion state machine

One `Step` is one completed handler invocation. Each constructor carries
the conditions under which the UI lets the handler fire: every triggering
button is disabled while `loadingAction` is non-null, so handlers are
serialized, and

- `handleProcessRound` is reachable from the clarification step (empty
  history) or from the "Proceed to Round n+1" button, which renders only on
  the latest round when `!isFinished` and its `execution_results` are
  present (src lines 1340, 1423-1432);
- `handleExecuteRound` renders only on the latest round when `!isFinished`
  and it has no `execution_results` yet (src lines 1423, 1434-1438);
- `handleStopDiscussion` renders next to "Proceed" under the same
  conditions as "Proceed" (src lines 1423-1429);
- `handleContinueWithFollowUp` renders inside any round's final-report
  block (src lines 1384, 1403-1419).

The API keys may be edited between steps, so `keys` is chosen per step. -/

/-- Whether the latest round has its execution results attached. -/
def latestHasResults (st : AppState) : Bool :=
  match st.history.getLast? with
  | none => false
  | some h => h.execution_results.isSome

/-- One completed handler invocation, with its UI enabling conditions. -/
inductive Step (fmt : String → String) : AppState → AppState → Prop
  | process (st : AppState) (resp : Option CoordinatorResponse)
      (hfin : st.isFinished = false)
      (hready : st.history = [] ∨ latestHasResults st = true) :
      Step fmt st (handleProcessRound fmt st resp)
  | execute (st : AppState) (keys : String → Option String)
      (env : Nat → ProviderOutcome)
      (hfin : st.isFinished = false)
      (hpending : latestHasResults st = false) (hne : st.history ≠ []) :
      Step fmt st (handleExecuteRound keys fmt env st)
  | stop (st : AppState) (resp : Option CoordinatorResponse)
      (hfin : st.isFinished = false)
      (hres : latestHasResults st = true) :
      Step fmt st (handleStopDiscussion fmt st resp)
  | followUp (st : AppState) (question : String)
      (resp : Option CoordinatorResponse)
      (hreport : ∃ h ∈ st.history, h.final_report ≠ none) :
      Step fmt st (handleContinueWithFollowUp fmt st question resp)

/-- States reachable from the fresh-discussion state through completed
handler invocations. -/
inductive Reachable (fmt : String → String) : AppState → Prop
  | init : Reachable fmt initState
  | step {st st' : AppState} : Reachable fmt st → Step fmt st st' →
      Reachable fmt st'

/-! ## Concrete scenario data

Concrete keys, calls, responses and states used by the counterexamples and
witnesses below. `fmt` is instantiated with `id` in concrete scenarios. -/

/-- An API-key store holding only a Google key. -/
def keysGoogleOnly : String → Option String :=
  fun p => if p = "Google" then some "g-key" else none

/-- An API-key store holding Google and Anthropic keys. -/
def keysGoogleAnthropic : String → Option String :=
  fun p => if p = "Google" ∨ p = "Anthropic" then some "key" else none

/-- A call directed at the Google agent of the roster. -/
def googleCall : Call :=
  { provider := "Google", model := "gemini-2.5-pro", role := "Analyst"
    prompt := "Analyze the topic", timeout_sec := 60 }

/-- A call directed at an Anthropic agent. -/
def anthropicCall : Call :=
  { provider := "Anthropic", model := "claude-3-opus", role := "Reviewer"
    prompt := "Critique the analysis", timeout_sec := 60 }

/-- Every provider request succeeds with the text "ok". -/
def envAllOk : Nat → ProviderOutcome := fun _ => .ok "ok"

/-- The first provider request succeeds, every later one hits a network
failure. -/
def envSecondFails : Nat → ProviderOutcome :=
  fun i => if i = 0 then .ok "ok" else .netError "network down"

/-- A coordinator response planning one Google call and continuing. -/
def respContinueGoogle : CoordinatorResponse :=
  { round_plan := { calls := [googleCall], stop_condition := .continue_ }
    debate_summary := "round planned", final_if_stopped := none }

/-- A coordinator response planning both calls and continuing. -/
def respContinueBoth : CoordinatorResponse :=
  { round_plan := { calls := [googleCall, anthropicCall]
                    stop_condition := .continue_ }
    debate_summary := "round planned", final_if_stopped := none }

/-- A fully populated raw final report (all schema-optional fields
present). -/
def rawReportFull : RawFinalReport :=
  { consensus := some "agreed"
    bullet_summary := some ["key point"]
    doc_outline := some ["outline"]
    doc_body_blocks := some [{ heading := "Heading", content := "Body" }] }

/-- A compliant stopping response: `consensus_formed` with a populated
final report. -/
def respStopCompliant : CoordinatorResponse :=
  { round_plan := { calls := [googleCall]
                    stop_condition := .consensus_formed }
    debate_summary := "stopping", final_if_stopped := some rawReportFull }

/-- A mismatched stopping response: `consensus_formed` but no
`final_if_stopped`. -/
def respStopNoReport : CoordinatorResponse :=
  { round_plan := { calls := [googleCall]
                    stop_condition := .consensus_formed }
    debate_summary := "stopping", final_if_stopped := none }

/-- A raw final report missing `bullet_summary` and `doc_body_blocks`:
cleaning it throws a TypeError in the source. -/
def rawReportMalformed : RawFinalReport :=
  { consensus := some "agreed", bullet_summary := none
    doc_outline := none, doc_body_blocks := none }

/-- A stopping response whose final report is present but malformed. -/
def respStopMalformed : CoordinatorResponse :=
  { round_plan := { calls := [googleCall]
                    stop_condition := .consensus_formed }
    debate_summary := "stopping", final_if_stopped := some rawReportMalformed }

/-- One planned (unexecuted) round of two calls, as
`handleProcessRound` appends it. -/
def stateTwoCallRound : AppState :=
  handleProcessRound id initState (some respContinueBoth)

/-- One planned round with the single Google call. -/
def stateOneCallRound : AppState :=
  handleProcessRound id initState (some respContinueGoogle)

/-- The one-call round after a successful execution. -/
def stateExecuted : AppState :=
  handleExecuteRound keysGoogleOnly id envAllOk stateOneCallRound

/-- A finished discussion: round 1 declared `consensus_formed` with a
final report. -/
def stateFinished : AppState :=
  handleProcessRound id initState (some respStopCompliant)

/-- The finished discussion after a follow-up whose planning call
failed. -/
def stateFollowUpFailed : AppState :=
  handleContinueWithFollowUp id stateFinished "Why is that?" none

/-- The alignment invariant of the spec: whenever a round's
`execution_results` are present, they match its `calls` pointwise in
(provider, model), in particular in length. -/
def roundAligned (h : RoundHistory) : Prop :=
  ∀ rs, h.execution_results = some rs →
    rs.map (fun r => (r.provider, r.model))
      = h.plan.calls.map (fun c => (c.provider, c.model))

/-! ## Basic lemmas about the execution engine -/

theorem executeCall_ok_echo (keys : String → Option String)
    (fmt : String → String) (call : Call) (outcome : ProviderOutcome)
    (r : ExecutionResult) (h : executeCall keys fmt call outcome = .ok r) :
    r.provider = call.provider ∧ r.model = call.model := by
  unfold executeCall at h
  split at h
  · exact absurd h (by simp)
  · split at h
    · cases outcome <;>
        (simp only [Except.ok.injEq] at h; subst h; exact ⟨rfl, rfl⟩)
    · simp only [Except.ok.injEq] at h; subst h; exact ⟨rfl, rfl⟩

theorem runCalls_ok_pairs (keys : String → Option String)
    (fmt : String → String) (env : Nat → ProviderOutcome) :
    ∀ (cs : List Call) (i : Nat) (rs : List ExecutionResult),
      runCalls keys fmt env i cs = .ok rs →
      rs.map (fun r => (r.provider, r.model))
        = cs.map (fun c => (c.provider, c.model)) := by
  intro cs
  induction cs with
  | nil =>
    intro i rs h
    simp only [runCalls] at h
    cases h
    simp
  | cons c cs ih =>
    intro i rs h
    unfold runCalls at h
    cases he : executeCall keys fmt c (env i) with
    | error e => rw [he] at h; exact absurd h (by simp)
    | ok r =>
      rw [he] at h
      cases ht : runCalls keys fmt env (i + 1) cs with
      | error e => rw [ht] at h; exact absurd h (by simp)
      | ok rs2 =>
        rw [ht] at h
        cases h
        obtain ⟨hp, hm⟩ := executeCall_ok_echo keys fmt c (env i) r he
        simp [hp, hm, ih (i + 1) rs2 ht]

/-! ## Lemmas about `updateLast` and the handlers -/

theorem mem_updateLast {f : RoundHistory → RoundHistory}
    {l : List RoundHistory} {x : RoundHistory} (hx : x ∈ updateLast f l) :
    x ∈ l ∨ ∃ y, l.getLast? = some y ∧ x = f y := by
  unfold updateLast at hx
  cases hl : l.getLast? with
  | none => rw [hl] at hx; exact Or.inl hx
  | some last =>
    rw [hl] at hx
    rcases List.mem_append.mp hx with h1 | h2
    · exact Or.inl (List.dropLast_subset l h1)
    · exact Or.inr ⟨last, rfl, by simpa using h2⟩

theorem getLast?_mem_self {l : List RoundHistory} {y : RoundHistory}
    (h : l.getLast? = some y) : y ∈ l := by
  have hne : l ≠ [] := by intro he; subst he; simp at h
  have h2 := List.getLast?_eq_getLast_of_ne_nil hne
  rw [h] at h2
  have h3 : y = l.getLast hne := by injection h2
  rw [h3]
  exact List.getLast_mem hne

theorem length_updateLast (f : RoundHistory → RoundHistory)
    (l : List RoundHistory) : (updateLast f l).length = l.length := by
  unfold updateLast
  cases hl : l.getLast? with
  | none => rfl
  | some last =>
    have hne : l ≠ [] := by intro he; subst he; simp at hl
    have hpos : 0 < l.length := List.length_pos.mpr hne
    simp [List.length_dropLast]
    omega

theorem dropLast_updateLast (f : RoundHistory → RoundHistory)
    (l : List RoundHistory) : (updateLast f l).dropLast = l.dropLast := by
  unfold updateLast
  cases hl : l.getLast? with
  | none => rfl
  | some last => simp [List.dropLast_concat]

theorem getLast?_updateLast (f : RoundHistory → RoundHistory)
    (l : List RoundHistory) :
    (updateLast f l).getLast? = l.getLast?.map f := by
  unfold updateLast
  cases hl : l.getLast? with
  | none => simp [hl]
  | some last => simp [List.getLast?_concat]

theorem handleProcessRound_cases (fmt : String → String) (st : AppState)
    (resp : Option CoordinatorResponse) :
    handleProcessRound fmt st resp = st ∨
    ∃ r cfr, resp = some r ∧
      handleProcessRound fmt st resp = appendRound fmt st r cfr := by
  cases resp with
  | none => exact Or.inl rfl
  | some r =>
    cases hfr : r.final_if_stopped with
    | none =>
      refine Or.inr ⟨r, none, rfl, ?_⟩
      simp [handleProcessRound, hfr]
    | some fr =>
      cases hc : cleanFinalReport fmt fr with
      | none =>
        refine Or.inl ?_
        simp [handleProcessRound, hfr, hc]
      | some cfr =>
        refine Or.inr ⟨r, some cfr, rfl, ?_⟩
        simp [handleProcessRound, hfr, hc]

theorem handleExecuteRound_cases (keys : String → Option String)
    (fmt : String → String) (env : Nat → ProviderOutcome) (st : AppState) :
    handleExecuteRound keys fmt env st = st ∨
    ∃ latest results, st.history.getLast? = some latest ∧
      runCalls keys fmt env 0 latest.plan.calls = .ok results ∧
      handleExecuteRound keys fmt env st =
        { st with history :=
            (updateLast
              (fun h => { h with execution_results := some results })
              st.history) } := by
  cases hl : st.history.getLast? with
  | none =>
    refine Or.inl ?_
    simp [handleExecuteRound, hl]
  | some latest =>
    cases hr : runCalls keys fmt env 0 latest.plan.calls with
    | error e =>
      refine Or.inl ?_
      simp [handleExecuteRound, hl, hr]
    | ok results =>
      refine Or.inr ⟨latest, results, rfl, hr, ?_⟩
      simp [handleExecuteRound, hl, hr]

theorem handleStopDiscussion_cases (fmt : String → String) (st : AppState)
    (resp : Option CoordinatorResponse) :
    handleStopDiscussion fmt st resp = st ∨
    ∃ r cfr, resp = some r ∧
      handleStopDiscussion fmt st resp = applyStop st r cfr := by
  cases resp with
  | none => exact Or.inl rfl
  | some r =>
    cases hfr : r.final_if_stopped with
    | none =>
      refine Or.inr ⟨r, none, rfl, ?_⟩
      simp [handleStopDiscussion, hfr]
    | some fr =>
      cases hc : cleanFinalReport fmt fr with
      | none =>
        refine Or.inl ?_
        simp [handleStopDiscussion, hfr, hc]
      | some cfr =>
        refine Or.inr ⟨r, some cfr, rfl, ?_⟩
        simp [handleStopDiscussion, hfr, hc]

/-! ## The alignment invariant -/

theorem appendRound_aligned {fmt : String → String} {st : AppState}
    {r : CoordinatorResponse} {cfr : Option FinalReportData}
    (hinv : ∀ h ∈ st.history, roundAligned h) :
    ∀ h ∈ (appendRound fmt st r cfr).history, roundAligned h := by
  intro h hh
  unfold appendRound at hh
  rcases List.mem_append.mp hh with h1 | h2
  · exact hinv h h1
  · have heq : h = newHistoryItem fmt st r cfr := by simpa using h2
    subst heq
    intro rs hrs
    simp [newHistoryItem] at hrs

theorem step_aligned {fmt : String → String} {st st' : AppState}
    (hstep : Step fmt st st') (hinv : ∀ h ∈ st.history, roundAligned h) :
    ∀ h ∈ st'.history, roundAligned h := by
  cases hstep with
  | process resp hfin hready =>
    rcases handleProcessRound_cases fmt st resp with he | ⟨r, cfr, _, he⟩
    · rw [he]; exact hinv
    · rw [he]; exact appendRound_aligned hinv
  | execute keys env hfin hpending hne =>
    rcases handleExecuteRound_cases keys fmt env st with
      he | ⟨latest, results, hl, hr, he⟩
    · rw [he]; exact hinv
    · rw [he]
      intro h hh
      rcases mem_updateLast hh with h1 | ⟨y, hy, hxy⟩
      · exact hinv h h1
      · rw [hl] at hy
        injection hy with hy
        subst hy
        subst hxy
        intro rs hrs
        simp only [Option.some.injEq] at hrs
        subst hrs
        exact runCalls_ok_pairs keys fmt env latest.plan.calls 0 results hr
  | stop resp hfin hres =>
    rcases handleStopDiscussion_cases fmt st resp with he | ⟨r, cfr, _, he⟩
    · rw [he]; exact hinv
    · rw [he]
      intro h hh
      unfold applyStop at hh
      rcases mem_updateLast hh with h1 | ⟨y, hy, hxy⟩
      · exact hinv h h1
      · subst hxy
        intro rs hrs
        simp only at hrs
        exact hinv y (getLast?_mem_self hy) rs hrs
  | followUp question resp hreport =>
    unfold handleContinueWithFollowUp
    by_cases hq : jsTrim question = ""
    · rw [if_pos hq]; exact hinv
    · rw [if_neg hq]
      have hinv2 : ∀ h ∈ (AppState.mk st.history false).history, roundAligned h :=
        hinv
      rcases handleProcessRound_cases fmt { st with isFinished := false } resp
        with he | ⟨r, cfr, _, he⟩
      · rw [he]; exact hinv2
      · rw [he]; exact appendRound_aligned hinv2

theorem reachable_aligned {fmt : String → String} {st : AppState}
    (hst : Reachable fmt st) : ∀ h ∈ st.history, roundAligned h := by
  induction hst with
  | init => intro h hh; simp [initState] at hh
  | step hr hs ih =>
    exact step_aligned hs ih

/-! ## Claim C1 -/

/-- C1: the claim says any failure mode of a single Call — including a
missing API credential for that Call's provider — produces a failure
`ExecutionResult` for that Call alone, and the round still completes with a
full `ExecutionResult` list in which only that Call is failed. The code
breaks this for the missing-credential mode: `executeCall` throws before
its try/catch (src lines 667-670), so `Promise.all` rejects and
`handleExecuteRound` attaches nothing (src lines 764-775). At the failing
input — Google key present, Anthropic key absent, both providers would
answer — the whole round execution is a no-op and no result list exists,
although the same round with both keys and a provider-level network failure
on the second call does settle with a full, per-call-isolated list. -/
theorem c1_missing_credential_aborts_round :
    runCalls keysGoogleOnly id envAllOk 0 [googleCall, anthropicCall]
      = .error "API Key for Anthropic is missing." ∧
    handleExecuteRound keysGoogleOnly id envAllOk stateTwoCallRound
      = stateTwoCallRound ∧
    (∃ h, stateTwoCallRound.history.getLast? = some h ∧
      h.execution_results = none ∧ h.plan.calls.length = 2) ∧
    runCalls keysGoogleAnthropic id envSecondFails 0
        [googleCall, anthropicCall]
      = .ok [⟨"Google", "gemini-2.5-pro", "ok"⟩,
             ⟨"Anthropic", "claude-3-opus", "Error: network down"⟩] := by
  refine ⟨rfl, rfl, ⟨_, rfl, rfl, rfl⟩, rfl⟩

/-! ## Claim C2 -/

/-- C2 counterexample: the claim says each Call's `timeout_sec` bound
independently limits its own external request and its expiry converts the
Call into a failure `ExecutionResult` recording the timeout. No such
mechanism exists: `timeout_sec` is carried in the plan (src line 12,
schema line 433) but never read during execution (src lines 666-762), so a
Call bounded to 1 second is executed exactly like one bounded to 1000000
seconds, and a successful provider response is always recorded as success
no matter how long it took — never as a timeout failure. -/
theorem c2_timeout_never_enforced :
    executeCall keysGoogleOnly id { googleCall with timeout_sec := 1 }
        (.ok "ok")
      = .ok ⟨"Google", "gemini-2.5-pro", "ok"⟩ ∧
    executeCall keysGoogleOnly id { googleCall with timeout_sec := 1 }
        (.ok "ok")
      = executeCall keysGoogleOnly id
          { googleCall with timeout_sec := 1000000 } (.ok "ok") := by
  exact ⟨rfl, rfl⟩

/-- C2 amended: `timeout_sec` is carried on every Call but never consulted
by the execution engine: rebinding the timeout of a single Call — or of
every Call of a round — leaves the execution outcome unchanged, so no
per-call timeout is enforced and expiry never converts a Call into a
timeout failure. -/
theorem c2_timeout_ignored_by_execution (keys : String → Option String)
    (fmt : String → String) (call : Call) (outcome : ProviderOutcome)
    (t : Int) (env : Nat → ProviderOutcome) (i : Nat) (cs : List Call)
    (retime : Call → Int) :
    executeCall keys fmt { call with timeout_sec := t } outcome
      = executeCall keys fmt call outcome ∧
    runCalls keys fmt env i
        (cs.map (fun c => { c with timeout_sec := retime c }))
      = runCalls keys fmt env i cs := by
  constructor
  · rfl
  · induction cs generalizing i with
    | nil => rfl
    | cons c cs ih =>
      simp only [List.map_cons, runCalls]
      rw [ih (i + 1)]
      rfl

/-! ## Claim C3 -/

/-- C3 counterexample: the claim says a Coordinator response containing a
Call whose (provider, model) pair is not in the agent roster makes planning
fail with no Round appended. `handleProcessRound` never consults the roster
when accepting a response (src lines 621-653): with roster
{(Google, gemini-2.5-pro)} and a response whose second Call targets
(Anthropic, claude-3-opus), the round is appended and the history length
changes from 0 to 1. -/
theorem c3_unknown_agent_round_appended :
    (("Anthropic", "claude-3-opus") ∉
      flatSelectedModels [("Google", ["gemini-2.5-pro"])]) ∧
    (anthropicCall.provider, anthropicCall.model)
      = ("Anthropic", "claude-3-opus") ∧
    anthropicCall ∈ respContinueBoth.round_plan.calls ∧
    (handleProcessRound id initState (some respContinueBoth)).history.length
      = initState.history.length + 1 := by
  exact ⟨by decide, rfl, by decide, rfl⟩

/-- C3 amended: a planning operation is atomic — a missing response
(network failure or JSON.parse throw) and a present-but-malformed
`final_if_stopped` (absent `bullet_summary`/`doc_body_blocks`) leave the
state untouched, and in every case the history either is unchanged or
grows by exactly the one validated-shape round — but membership of the
planned Calls' (provider, model) pairs in the agent roster is NOT checked:
a response referencing an unknown agent is appended as-is. -/
theorem c3_planning_atomic_without_roster_check (fmt : String → String)
    (st : AppState) (resp : Option CoordinatorResponse) :
    handleProcessRound fmt st none = st ∧
    (∀ r fr, resp = some r → r.final_if_stopped = some fr →
      cleanFinalReport fmt fr = none → handleProcessRound fmt st resp = st) ∧
    ((handleProcessRound fmt st resp).history = st.history ∨
      ∃ r cfr, resp = some r ∧
        (handleProcessRound fmt st resp).history
          = st.history ++ [newHistoryItem fmt st r cfr]) := by
  refine ⟨rfl, ?_, ?_⟩
  · intro r fr h1 h2 h3
    subst h1
    simp [handleProcessRound, h2, h3]
  · rcases handleProcessRound_cases fmt st resp with he | ⟨r, cfr, hr, he⟩
    · exact Or.inl (by rw [he])
    · exact Or.inr ⟨r, cfr, hr, by rw [he]; rfl⟩

/-- C3 witness: the amended theorem applied at a concrete malformed
response (present `final_if_stopped` without `bullet_summary`): planning is
a no-op on the initial state. -/
theorem c3_witness :
    handleProcessRound id initState (some respStopMalformed) = initState := by
  exact (c3_planning_atomic_without_roster_check id initState
    (some respStopMalformed)).2.1 respStopMalformed rawReportMalformed
    rfl rfl rfl

/-! ## Claim C4 -/

/-- C4: in every reachable discussion state, every round whose
`execution_results` are present has exactly as many results as calls and
the i-th result echoes the i-th call's (provider, model), for all i.
`executeCall` copies `call.provider`/`call.model` into its result on both
the success and the failure path (src lines 751, 756-760), `Promise.all`
preserves order and length, and the write-back targets the whole round
(src lines 764-771); planning appends rounds without results and the
forced stop touches neither `calls` nor `execution_results`. -/
theorem c4_execution_results_match_calls (fmt : String → String)
    (st : AppState) (hst : Reachable fmt st) (h : RoundHistory)
    (hmem : h ∈ st.history) (rs : List ExecutionResult)
    (hrs : h.execution_results = some rs) :
    rs.length = h.plan.calls.length ∧
    rs.map (fun r => (r.provider, r.model))
      = h.plan.calls.map (fun c => (c.provider, c.model)) := by
  have hmap := reachable_aligned hst h hmem rs hrs
  refine ⟨?_, hmap⟩
  have hlen := congrArg List.length hmap
  simpa using hlen

/-- C4 witness: the theorem applied to the concrete reachable state in
which round 1 (one Google call) has been executed successfully. -/
theorem c4_execution_results_match_calls_witness :
    ([⟨"Google", "gemini-2.5-pro", "ok"⟩] : List ExecutionResult).length
      = ({ newHistoryItem id initState respContinueGoogle none with
            execution_results :=
              some [⟨"Google", "gemini-2.5-pro", "ok"⟩] } :
          RoundHistory).plan.calls.length ∧
    ([⟨"Google", "gemini-2.5-pro", "ok"⟩] : List ExecutionResult).map
        (fun r => (r.provider, r.model))
      = ({ newHistoryItem id initState respContinueGoogle none with
            execution_results :=
              some [⟨"Google", "gemini-2.5-pro", "ok"⟩] } :
          RoundHistory).plan.calls.map (fun c => (c.provider, c.model)) := by
  have hr1 : Reachable id stateOneCallRound :=
    Reachable.step Reachable.init
      (Step.process initState (some respContinueGoogle) rfl (Or.inl rfl))
  have hr2 : Reachable id stateExecuted :=
    Reachable.step hr1
      (Step.execute stateOneCallRound keysGoogleOnly envAllOk rfl rfl
        (by decide))
  exact c4_execution_results_match_calls id stateExecuted hr2
    ({ newHistoryItem id initState respContinueGoogle none with
        execution_results := some [⟨"Google", "gemini-2.5-pro", "ok"⟩] })
    (by decide) [⟨"Google", "gemini-2.5-pro", "ok"⟩] rfl

/-! ## Claim C5 -/

/-- C5 counterexample: the claim says that in every reachable state with at
least one round, `finished = true` iff the latest round's stop condition is
not `continue`. Reachable refutation: round 1 stops with
`consensus_formed` and a final report, then the user submits a follow-up
whose planning call fails. `handleContinueWithFollowUp` runs
`setIsFinished(false)` before planning (src lines 879-885), and the failed
planning leaves the flag false (src lines 648-652): the state has
`finished = false` while the latest round's stop condition is
`consensus_formed`. -/
theorem c5_finished_flag_desyncs :
    Reachable id stateFollowUpFailed ∧
    stateFollowUpFailed.isFinished = false ∧
    (∃ h, stateFollowUpFailed.history.getLast? = some h ∧
      h.plan.stop_condition ≠ .continue_) := by
  refine ⟨?_, rfl, ⟨_, rfl, by decide⟩⟩
  have hr1 : Reachable id stateFinished :=
    Reachable.step Reachable.init
      (Step.process initState (some respStopCompliant) rfl (Or.inl rfl))
  exact Reachable.step hr1
    (Step.followUp stateFinished "Why is that?" none (by decide))

/-- C5 amended: the biconditional is not a global invariant (a failed
follow-up planning leaves `finished = false` with the latest stop condition
not `continue`); what holds per operation is: a planning operation that
appends a round to an unfinished discussion establishes
`finished = true` iff the appended round's stop condition is not
`continue`, and a forced stop whose response is applied and carries a
non-`continue` stop condition establishes `finished = true` with the latest
round's stop condition equal to the response's (hence not `continue`). -/
theorem c5_finished_iff_per_operation (fmt : String → String)
    (st : AppState) (r : CoordinatorResponse) :
    (st.isFinished = false →
      (handleProcessRound fmt st (some r)).history.length
        = st.history.length + 1 →
      ((handleProcessRound fmt st (some r)).isFinished = true
        ↔ r.round_plan.stop_condition ≠ .continue_)) ∧
    (st.history ≠ [] →
      r.round_plan.stop_condition ≠ .continue_ →
      (r.final_if_stopped = none ∨
        ∃ fr cfr, r.final_if_stopped = some fr ∧
          cleanFinalReport fmt fr = some cfr) →
      (handleStopDiscussion fmt st (some r)).isFinished = true ∧
      ∃ h, (handleStopDiscussion fmt st (some r)).history.getLast? = some h ∧
        h.plan.stop_condition = r.round_plan.stop_condition) := by
  constructor
  · intro hfin hlen
    rcases handleProcessRound_cases fmt st (some r) with he | ⟨r2, cfr, hr2, he⟩
    · rw [he] at hlen; omega
    · injection hr2 with hr2
      subst hr2
      rw [he]
      unfold appendRound
      by_cases hstop : r.round_plan.stop_condition = .continue_ <;>
        simp [hstop, hfin]
  · intro hne hstop happ
    obtain ⟨y, hy⟩ : ∃ y, st.history.getLast? = some y := by
      cases hl : st.history.getLast? with
      | none => exact absurd (List.getLast?_eq_none_iff.mp hl) hne
      | some y => exact ⟨y, rfl⟩
    have happly : ∀ cfr : Option FinalReportData,
        (applyStop st r cfr).isFinished = true ∧
        ∃ h, (applyStop st r cfr).history.getLast? = some h ∧
          h.plan.stop_condition = r.round_plan.stop_condition := by
      intro cfr
      refine ⟨rfl, ?_⟩
      have hlast := getLast?_updateLast (fun h => { h with final_report := cfr, plan := { h.plan with stop_condition := r.round_plan.stop_condition } }) st.history
      rw [hy] at hlast
      simp only [Option.map_some] at hlast
      unfold applyStop
      exact ⟨_, hlast, rfl⟩
    rcases happ with hnone | ⟨fr, cfr, hfr, hclean⟩
    · have he : handleStopDiscussion fmt st (some r) = applyStop st r none := by
        simp [handleStopDiscussion, hnone]
      rw [he]; exact happly none
    · have he : handleStopDiscussion fmt st (some r)
          = applyStop st r (some cfr) := by
        simp [handleStopDiscussion, hfr, hclean]
      rw [he]; exact happly (some cfr)

/-- C5 witness: the amended theorem applied at concrete inputs — appending
the continuing round 1 to the fresh state, and forcing a stop on the
executed one-round state with the compliant stopping response. -/
theorem c5_finished_iff_per_operation_witness :
    ((handleProcessRound id initState (some respContinueGoogle)).isFinished
        = true ↔ respContinueGoogle.round_plan.stop_condition ≠ .continue_) ∧
    ((handleStopDiscussion id stateExecuted
        (some respStopCompliant)).isFinished = true ∧
      ∃ h, (handleStopDiscussion id stateExecuted
          (some respStopCompliant)).history.getLast? = some h ∧
        h.plan.stop_condition
          = respStopCompliant.round_plan.stop_condition) := by
  constructor
  · exact (c5_finished_iff_per_operation id initState
      respContinueGoogle).1 rfl rfl
  · exact (c5_finished_iff_per_operation id stateExecuted
      respStopCompliant).2 (by decide) (by decide)
      (Or.inr ⟨rawReportFull, _, rfl, rfl⟩)

/-! ## Claim C6 -/

/-- C6: a forced stop whose coordinator call behaves as instructed (it
parses, carries `consensus_formed`, and a populated final report that
cleans successfully) rewrites only the currently latest round in place:
the history keeps its length (no new round), all earlier rounds are
byte-identical (`dropLast` unchanged), the latest round keeps its ordinal,
summary, calls and execution results while its stop condition becomes
`consensus_formed` and its final report becomes non-null, and the
discussion's finished flag becomes true (src lines 861-871). -/
theorem c6_forced_stop_rewrites_latest_round_only (fmt : String → String)
    (st : AppState) (r : CoordinatorResponse) (fr : RawFinalReport)
    (cfr : FinalReportData) (hne : st.history ≠ [])
    (hstop : r.round_plan.stop_condition = .consensus_formed)
    (hfr : r.final_if_stopped = some fr)
    (hclean : cleanFinalReport fmt fr = some cfr) :
    (handleStopDiscussion fmt st (some r)).history.length
      = st.history.length ∧
    (handleStopDiscussion fmt st (some r)).history.dropLast
      = st.history.dropLast ∧
    (handleStopDiscussion fmt st (some r)).isFinished = true ∧
    ∃ h h', st.history.getLast? = some h ∧
      (handleStopDiscussion fmt st (some r)).history.getLast? = some h' ∧
      h'.plan.stop_condition = .consensus_formed ∧
      h'.final_report = some cfr ∧
      h'.round = h.round ∧ h'.summary = h.summary ∧
      h'.plan.calls = h.plan.calls ∧
      h'.execution_results = h.execution_results := by
  have he : handleStopDiscussion fmt st (some r) = applyStop st r (some cfr) := by
    simp [handleStopDiscussion, hfr, hclean]
  obtain ⟨y, hy⟩ : ∃ y, st.history.getLast? = some y := by
    cases hl : st.history.getLast? with
    | none => exact absurd (List.getLast?_eq_none_iff.mp hl) hne
    | some y => exact ⟨y, rfl⟩
  have hlast := getLast?_updateLast (fun h => { h with final_report := some cfr, plan := { h.plan with stop_condition := r.round_plan.stop_condition } }) st.history
  rw [hy] at hlast
  simp only [Option.map_some] at hlast
  rw [he]
  unfold applyStop
  refine ⟨length_updateLast _ _, dropLast_updateLast _ _, rfl,
    ⟨y, _, hy, hlast, ?_, rfl, rfl, rfl, rfl, rfl⟩⟩
  show r.round_plan.stop_condition = _
  rw [hstop]

/-- C6 witness: the theorem applied to the concrete executed one-round
state and the compliant stopping response. -/
theorem c6_forced_stop_witness :
    (handleStopDiscussion id stateExecuted
        (some respStopCompliant)).history.length
      = stateExecuted.history.length ∧
    (handleStopDiscussion id stateExecuted
        (some respStopCompliant)).history.dropLast
      = stateExecuted.history.dropLast ∧
    (handleStopDiscussion id stateExecuted
        (some respStopCompliant)).isFinished = true ∧
    ∃ h h', stateExecuted.history.getLast? = some h ∧
      (handleStopDiscussion id stateExecuted
          (some respStopCompliant)).history.getLast? = some h' ∧
      h'.plan.stop_condition = .consensus_formed ∧
      h'.final_report = some { consensus := "agreed"
                               bullet_summary := ["key point"]
                               doc_outline := some ["outline"]
                               doc_body_blocks :=
                                 [{ heading := "Heading"
                                    content := "Body" }] } ∧
      h'.round = h.round ∧ h'.summary = h.summary ∧
      h'.plan.calls = h.plan.calls ∧
      h'.execution_results = h.execution_results := by
  exact c6_forced_stop_rewrites_latest_round_only id stateExecuted
    respStopCompliant rawReportFull _ (by decide) rfl rfl rfl

/-! ## Claim C7 -/

/-- C7 counterexample: the claim says the finished flag flips to false
exactly when the follow-up round is appended — not before — and that a
failed follow-up planning leaves the state unchanged. In the code,
`handleContinueWithFollowUp` calls `setIsFinished(false)` before the
planning request is even sent (src lines 879-885): on the concrete
finished one-round state, a follow-up whose planning call fails appends
nothing, yet the flag has already flipped to false — so the flip happened
before any append, and the state is not unchanged. -/
theorem c7_finished_flips_before_append :
    stateFinished.isFinished = true ∧
    (handleContinueWithFollowUp id stateFinished "Why is that?" none).history
      = stateFinished.history ∧
    (handleContinueWithFollowUp id stateFinished "Why is that?"
        none).isFinished = false := by
  exact ⟨rfl, rfl, rfl⟩

/-- C7 amended: submitting a non-blank follow-up question sets
`finished := false` immediately, before the planning operation runs: the
resulting state is exactly the planning operation applied to the state
with the flag already cleared; in particular, when the planning call
fails, the history is unchanged but the finished flag remains false (the
prior state is not restored). -/
theorem c7_follow_up_clears_flag_first (fmt : String → String)
    (st : AppState) (question : String)
    (resp : Option CoordinatorResponse) (hq : jsTrim question ≠ "") :
    handleContinueWithFollowUp fmt st question resp
      = handleProcessRound fmt { st with isFinished := false } resp ∧
    (resp = none →
      (handleContinueWithFollowUp fmt st question resp).history
          = st.history ∧
      (handleContinueWithFollowUp fmt st question resp).isFinished
          = false) := by
  have he : handleContinueWithFollowUp fmt st question resp
      = handleProcessRound fmt { st with isFinished := false } resp := by
    unfold handleContinueWithFollowUp
    rw [if_neg hq]
  refine ⟨he, ?_⟩
  intro hresp
  subst hresp
  rw [he]
  exact ⟨rfl, rfl⟩

/-- C7 witness: the amended theorem applied to the concrete finished
state with a failing planner. -/
theorem c7_follow_up_clears_flag_first_witness :
    handleContinueWithFollowUp id stateFinished "Why is that?" none
      = handleProcessRound id { stateFinished with isFinished := false }
          none ∧
    (handleContinueWithFollowUp id stateFinished "Why is that?"
        none).history = stateFinished.history ∧
    (handleContinueWithFollowUp id stateFinished "Why is that?"
        none).isFinished = false := by
  have h := c7_follow_up_clears_flag_first id stateFinished "Why is that?"
    none (by decide)
  exact ⟨h.1, h.2 rfl⟩

/-! ## Claim C8 -/

/-- C8 counterexample: the claim says a round carries a FinalReport iff its
stop condition is not `continue`, and a mismatched coordinator response
fails with no round appended. `handleProcessRound` performs no such
cross-check (src lines 626-647): a response declaring `consensus_formed`
with no `final_if_stopped` is appended as a round whose stop condition is
not `continue` and whose final report is absent, and the history grows. -/
theorem c8_report_stop_mismatch_accepted :
    (handleProcessRound id initState (some respStopNoReport)).history.length
      = 1 ∧
    (∃ h, (handleProcessRound id initState
        (some respStopNoReport)).history.getLast? = some h ∧
      h.plan.stop_condition ≠ .continue_ ∧ h.final_report = none) := by
  exact ⟨rfl, ⟨_, rfl, by decide, rfl⟩⟩

/-- C8 amended: the appended round's final report is exactly the cleaned
`final_if_stopped` of the response — `none` when the field is absent —
with no dependence on the stop condition and no presence/stop cross-check;
the only final-report-related failure is a present-but-malformed
`final_if_stopped`, which aborts planning with no round appended. -/
theorem c8_final_report_copied_unchecked (fmt : String → String)
    (st : AppState) (r : CoordinatorResponse) :
    (r.final_if_stopped = none →
      (handleProcessRound fmt st (some r)).history
        = st.history ++ [newHistoryItem fmt st r none]) ∧
    (∀ fr cfr, r.final_if_stopped = some fr →
      cleanFinalReport fmt fr = some cfr →
      (handleProcessRound fmt st (some r)).history
        = st.history ++ [newHistoryItem fmt st r (some cfr)]) ∧
    (∀ fr, r.final_if_stopped = some fr → cleanFinalReport fmt fr = none →
      handleProcessRound fmt st (some r) = st) := by
  refine ⟨?_, ?_, ?_⟩
  · intro hnone
    simp [handleProcessRound, hnone, appendRound]
  · intro fr cfr hfr hclean
    simp [handleProcessRound, hfr, hclean, appendRound]
  · intro fr hfr hclean
    simp [handleProcessRound, hfr, hclean]

/-- C8 witness: the amended theorem applied at the mismatched concrete
response: the round is appended with no final report. -/
theorem c8_final_report_copied_unchecked_witness :
    (handleProcessRound id initState (some respStopNoReport)).history
      = initState.history
          ++ [newHistoryItem id initState respStopNoReport none] := by
  exact (c8_final_report_copied_unchecked id initState respStopNoReport).1 rfl

/-! ## Claim C9 -/

/-- C9: every `ExecutionResult` actually produced by executing a Call (the
`.ok` outcome of `executeCall`; a missing key produces no result at all)
echoes the Call's provider and model, and its single `response` string
carries exactly one of the two payload forms, decided by one exclusive and
exhaustive condition — the provider returned text and the provider is
supported: when that condition holds the response is the success payload
`fmt text` (src line 751), and when it fails the response is the failure
payload `failureResponse msg` built in the catch block (src lines
753-761) — never both forms at once, never neither. -/
theorem c9_result_is_success_or_failure_payload
    (keys : String → Option String) (fmt : String → String) (call : Call)
    (outcome : ProviderOutcome) (r : ExecutionResult)
    (h : executeCall keys fmt call outcome = .ok r) :
    r.provider = call.provider ∧ r.model = call.model ∧
    (∀ text, outcome = .ok text →
      supportedProviders.contains call.provider = true →
      r.response = fmt text) ∧
    (¬(∃ text, outcome = .ok text ∧
        supportedProviders.contains call.provider = true) →
      ∃ msg, r.response = failureResponse msg) := by
  unfold executeCall at h
  split at h
  · exact absurd h (by simp)
  · split at h
    next hsp =>
      cases outcome with
      | ok text =>
        simp only [Except.ok.injEq] at h
        subst h
        refine ⟨rfl, rfl, ?_, ?_⟩
        · intro text2 ht _
          injection ht with ht
          subst ht
          rfl
        · intro hn
          exact absurd ⟨text, rfl, hsp⟩ hn
      | httpError status statusText body =>
        simp only [Except.ok.injEq] at h
        subst h
        refine ⟨rfl, rfl, ?_, ?_⟩
        · intro text2 ht _
          exact absurd ht (by simp)
        · intro _
          exact ⟨_, rfl⟩
      | netError message =>
        simp only [Except.ok.injEq] at h
        subst h
        refine ⟨rfl, rfl, ?_, ?_⟩
        · intro text2 ht _
          exact absurd ht (by simp)
        · intro _
          exact ⟨_, rfl⟩
    next hsp =>
      simp only [Except.ok.injEq] at h
      subst h
      refine ⟨rfl, rfl, ?_, ?_⟩
      · intro text2 _ hc
        exact absurd hc hsp
      · intro _
        exact ⟨_, rfl⟩

/-- C9 witness: the theorem applied to a concrete successful Google call. -/
theorem c9_result_payload_witness :
    (⟨"Google", "gemini-2.5-pro", "hello"⟩ : ExecutionResult).provider
      = googleCall.provider ∧
    (⟨"Google", "gemini-2.5-pro", "hello"⟩ : ExecutionResult).model
      = googleCall.model ∧
    (∀ text, ProviderOutcome.ok "hello" = .ok text →
      supportedProviders.contains googleCall.provider = true →
      (⟨"Google", "gemini-2.5-pro", "hello"⟩ : ExecutionResult).response
        = id text) ∧
    (¬(∃ text, ProviderOutcome.ok "hello" = .ok text ∧
        supportedProviders.contains googleCall.provider = true) →
      ∃ msg,
        (⟨"Google", "gemini-2.5-pro", "hello"⟩ : ExecutionResult).response
          = failureResponse msg) := by
  exact c9_result_is_success_or_failure_payload keysGoogleOnly id googleCall
    (.ok "hello") ⟨"Google", "gemini-2.5-pro", "hello"⟩ rfl

/-! ## Claim C10 -/

/-- C10: invoking the save operation with a non-blank topic and a non-empty
history prepends the current discussion snapshot and keeps at most the 19
most recent previous entries, so the resulting store never exceeds 20
discussions; with a blank topic or an empty history it is a no-op
(src lines 887-909). -/
theorem c10_save_prepends_and_caps_at_twenty (now : Int) (topic : String)
    (sm : List (String × List String))
    (mr : List (String × List (String × String)))
    (cr : List (String × (String × String)))
    (hist : List RoundHistory) (fin code : Bool) (lang : String)
    (prev : List SavedDiscussion) :
    (jsTrim topic = "" ∨ hist = [] →
      saveCurrentDiscussion now topic sm mr cr hist fin code lang prev
        = prev) ∧
    (jsTrim topic ≠ "" → hist ≠ [] →
      saveCurrentDiscussion now topic sm mr cr hist fin code lang prev
        = { id := toString now, title := discussionTitle topic,
            timestamp := now, topic := topic, selectedModels := sm,
            modelRoles := mr, clarifiedRoles := cr, history := hist,
            isFinished := fin, isCodeMode := code, language := lang }
          :: prev.take 19 ∧
      (saveCurrentDiscussion now topic sm mr cr hist fin code lang
          prev).length ≤ 20) := by
  constructor
  · intro hcond
    unfold saveCurrentDiscussion
    rw [if_pos hcond]
  · intro ht hh
    have hcond : ¬(jsTrim topic = "" ∨ hist = []) := by
      rintro (h1 | h2)
      · exact ht h1
      · exact hh h2
    unfold saveCurrentDiscussion
    rw [if_neg hcond]
    refine ⟨rfl, ?_⟩
    simp only [List.length_cons, List.length_take]
    omega

/-- C10 witness: the theorem applied to a concrete save of a one-round
discussion into an empty store. -/
theorem c10_save_witness :
    saveCurrentDiscussion 5 "Topic" [] [] []
        [newHistoryItem id initState respContinueGoogle none] false false
        "en" []
      = [{ id := toString (5 : Int), title := discussionTitle "Topic",
           timestamp := 5, topic := "Topic", selectedModels := [],
           modelRoles := [], clarifiedRoles := [],
           history := [newHistoryItem id initState respContinueGoogle none],
           isFinished := false, isCodeMode := false, language := "en" }] ∧
    (saveCurrentDiscussion 5 "Topic" [] [] []
        [newHistoryItem id initState respContinueGoogle none] false false
        "en" []).length ≤ 20 := by
  have h := (c10_save_prepends_and_caps_at_twenty 5 "Topic" [] [] []
    [newHistoryItem id initState respContinueGoogle none] false false
    "en" []).2 (by decide) (by decide)
  refine ⟨?_, h.2⟩
  rw [h.1]
  rfl
